import Mathlib

/-!
# Verification of the spectagular struct-tag parsing library

A shallow embedding of the core of `spectagular` (files `tag_cache.go` and
`resolvers.go`): the tag-grammar scanner, the resolver tree, the schema
compiler (`NewFieldTagCache`) and the tag decoder / cache (`StructTagCache.Add`,
`Get`).  Strings are modelled as `List Char`; the four anchored regular
expressions of the source are modelled by equivalent character-list scanners;
loops over shrinking strings are modelled by structural recursion on an
explicit fuel argument (each definition's wrapper supplies a fuel that exceeds
the number of iterations the loop can perform, so the `fuelExhausted` branch
is unreachable in every application appearing below).
-/

deriving instance DecidableEq for Except

/-- Go strings, modelled as lists of characters. -/
abbrev Chars := List Char

/-- Go's regexp `\w` character class (ASCII word characters). -/
def isWordChar (c : Char) : Bool :=
  c.isAlphanum || c == '_'

/-- `NameTag = "$name"`, the reserved name-carrier key. -/
def nameTagChars : Chars := ['$', 'n', 'a', 'm', 'e']

/-- `RequiredTag = "required"`. -/
def requiredChars : Chars := ['r', 'e', 'q', 'u', 'i', 'r', 'e', 'd']

/-- `SkipTag = "-"`. -/
def skipChars : Chars := ['-']

/-- `strings.ToLower`, restricted to the ASCII field names used here. -/
def lowerChars (s : Chars) : Chars := s.map Char.toLower

/-- `strings.Split(s, ",")`: splits at every comma; the empty string yields
one empty element, exactly as in Go. -/
def splitComma : Chars → List Chars
  | [] => [[]]
  | c :: rest =>
    if c = ',' then [] :: splitComma rest
    else
      match splitComma rest with
      | h :: t => (c :: h) :: t
      | [] => [[c]]

/-- `strings.Replace(value, "\\'", "'", -1)`: left-to-right, non-overlapping
replacement of the escape sequence backslash-quote by a quote. -/
def unescapeQuote : Chars → Chars
  | '\\' :: '\'' :: rest => '\'' :: unescapeQuote rest
  | c :: rest => c :: unescapeQuote rest
  | [] => []

/-- The match of `untilNextCommaRegex = ^([^,]*),?`: the captured prefix
before the first comma, and the remainder after the (optional) comma. -/
def matchUntilComma (t : Chars) : Chars × Chars :=
  let v := t.takeWhile (· != ',')
  (v, (t.drop v.length).tail)

/-- The match of `untilNextQuoteRegex = ^([^']*)'`: the captured prefix and
the remainder after the quote, or `none` when no quote occurs (`kv == nil`). -/
def matchUntilQuote (t : Chars) : Option (Chars × Chars) :=
  let v := t.takeWhile (· != '\'')
  match t.drop v.length with
  | _ :: rest => some (v, rest)
  | [] => none

/-- The match of `untilNextBracketRegex = ^([^\]]*)]`. -/
def matchUntilBracket (t : Chars) : Option (Chars × Chars) :=
  let v := t.takeWhile (· != ']')
  match t.drop v.length with
  | _ :: rest => some (v, rest)
  | [] => none

/-- Errors produced by the embedded code.  Each constructor stands for one
error site of the source: `grammar` is the string
"missing end quote on quoted string" (raised both by the quote loop of
`getNextTagValue` and by the bracket loop of `Add`), `conversion` is any
`strconv`/`convertToValue` failure, `convertMismatch` is the
"unable to convert value ..." `CanConvert` failure of `Add`, `notStruct` is
"FieldTagCache cannot cache non struct types", `needsStruct` is
"FieldTagCache needs a struct type for initialization", `unsupportedKind` is
"unsupported type for struct tag", `duplicateKey` is
"tag ... is in use by multiple fields", `missingRequired` is
"missing required tag fields" carrying the unmet keys.  `unmodelled` marks
calls that leave the sources under verification (`time.ParseDuration` and
user-supplied custom resolvers); `fuelExhausted` is the unreachable
fuel-out branch of the loop encodings. -/
inductive TagErr where
  | grammar
  | conversion
  | convertMismatch
  | missingRequired (keys : List Chars)
  | notStruct
  | needsStruct
  | unsupportedKind
  | duplicateKey
  | unmodelled
  | fuelExhausted
deriving DecidableEq, Repr

/-- `true` exactly on `Except.error`. -/
def isErr {α : Type} : Except TagErr α → Bool
  | .error _ => true
  | .ok _ => false

/-- The quote-consuming loop inside `getNextTagValue` (tag_cache.go:206-218):
repeatedly take everything up to the next quote; a segment ending in a
backslash means the quote was escaped, so replace the backslash by a literal
quote and continue; no quote at all is the hard error
"missing end quote on quoted string".  Returns (remaining tag, value). -/
def quotedValueLoopF : Nat → Chars → Chars → Except TagErr (Chars × Chars)
  | 0, _, _ => .error .fuelExhausted
  | f + 1, tag, acc =>
    match matchUntilQuote tag with
    | none => .error .grammar
    | some (seg, rest) =>
      let acc2 := acc ++ seg
      if seg.getLast? == some '\\' then
        quotedValueLoopF f rest (acc2.dropLast ++ ['\''])
      else
        .ok (rest, acc2)

/-- `getNextTagValue` (tag_cache.go:201-229): a value starting with a quote is
scanned by the quote loop; otherwise everything up to the next comma is taken
and the escape sequence backslash-quote is unescaped.
Returns (remaining tag, value string). -/
def getNextTagValue (tag : Chars) : Except TagErr (Chars × Chars) :=
  if tag.head? = some '\'' then
    quotedValueLoopF (tag.tail.length + 1) tag.tail []
  else
    let (v, r) := matchUntilComma tag
    .ok (r, unescapeQuote v)

/-- The bracket-consuming loop of `StructTagCache.Add` (tag_cache.go:280-292),
identical in shape to the quote loop (including its error message), with `]`
as the delimiter. -/
def bracketValueLoopF : Nat → Chars → Chars → Except TagErr (Chars × Chars)
  | 0, _, _ => .error .fuelExhausted
  | f + 1, tag, acc =>
    match matchUntilBracket tag with
    | none => .error .grammar
    | some (seg, rest) =>
      let acc2 := acc ++ seg
      if seg.getLast? == some '\\' then
        bracketValueLoopF f rest (acc2.dropLast ++ [']'])
      else
        .ok (rest, acc2)

/-- The bracket branch of `Add` applied to the characters after `[`. -/
def bracketValue (t : Chars) : Except TagErr (Chars × Chars) :=
  bracketValueLoopF (t.length + 1) t []

/-- The match of `keyValueRegex = ^(?:(\w+)=)?(.+)` (Go semantics: `\w` is
ASCII, `.` does not match a newline, the key group is preferred when the
mandatory value group can still match).  Returns `(key, value region)` with
`key = []` when the optional group did not take part in the match, `none`
when the whole pattern fails (which ends the entry loop of `Add`). -/
def keyValueMatch (t : Chars) : Option (Chars × Chars) :=
  let w := t.takeWhile isWordChar
  let rest := t.drop w.length
  if w ≠ [] ∧ rest.head? = some '=' ∧ rest.tail.takeWhile (· != '\n') ≠ [] then
    some (w, rest.tail.takeWhile (· != '\n'))
  else
    let v0 := t.takeWhile (· != '\n')
    if v0 = [] then none else some ([], v0)

/-- Value extraction of one entry inside `Add` (tag_cache.go:278-301): the
bracket loop when the value region opens with `[`, `getNextTagValue`
otherwise. -/
def extractValue (vr : Chars) : Except TagErr (Chars × Chars) :=
  if vr.head? = some '[' then bracketValue vr.tail
  else getNextTagValue vr

/-- The `reflect.Kind`s distinguished by the source.  Numeric widths other
than the 64-bit signed integer, the floating-point and the complex kinds are
not needed by any claim and are collapsed into `otherNumK` (their
`convertToValue` branches delegate to `strconv`, which the design treats as a
black box). -/
inductive FieldKind where
  | boolK
  | stringK
  | intK
  | otherNumK
  | sliceK
  | pointerK
  | struktK
  | chanK
  | funcK
  | ifaceK
  | invalidK
  | mapK
  | arrayK
  | rawPtrK
deriving DecidableEq, Repr

-- `reflect.Value`s produced by the resolvers modelled here.  `nilV` is the
-- zero value of reference kinds.  (`GoValueList` is a specialised element list
-- so that equality stays decidable by evaluation.)
mutual
inductive GoValue where
  | bool (b : Bool)
  | str (s : Chars)
  | int (i : Int)
  | slice (elems : GoValueList)
  | ptr (v : GoValue)
  | nilV
inductive GoValueList where
  | nil
  | cons (head : GoValue) (tail : GoValueList)
end
deriving instance DecidableEq for GoValue

/-- Conversion from an ordinary list of values. -/
def toGVList : List GoValue → GoValueList
  | [] => .nil
  | v :: rest => .cons v (toGVList rest)

/-- A Go type as seen by the schema compiler: its kind, whether it is exactly
`time.Duration`, and whether it implements `StructTagOptionUnmarshaler`.
Slice and pointer types carry their element type (the only element types the
source ever inspects). -/
inductive FieldType where
  | base (implementsU : Bool) (isDuration : Bool) (kind : FieldKind)
  | slice (implementsU : Bool) (elem : FieldType)
  | pointer (implementsU : Bool) (elem : FieldType)
deriving DecidableEq, Repr

/-- `Type.Kind()`. -/
def kindOf : FieldType → FieldKind
  | .base _ _ k => k
  | .slice _ _ => .sliceK
  | .pointer _ _ => .pointerK

/-- `Type.Implements(StructTagOptionUnmarshaler)`. -/
def implementsOf : FieldType → Bool
  | .base i _ _ => i
  | .slice i _ => i
  | .pointer i _ => i

/-- `fType == reflect.TypeOf(*new(time.Duration))`. -/
def isDurationType : FieldType → Bool
  | .base _ d _ => d
  | _ => false

/-- The kind inspected by the unsupported-kind switch of `NewFieldTagCache`
(tag_cache.go:166-170): a slice is unwrapped once to its element kind. -/
def effectiveKind : FieldType → FieldKind
  | .slice _ e => kindOf e
  | t => kindOf t

/-- The kinds of the `case` list at tag_cache.go:172: the kinds the author is
"unwilling to try to support". -/
def unsupportedKind : FieldKind → Bool
  | .sliceK | .arrayK | .chanK | .funcK | .ifaceK | .invalidK | .mapK | .rawPtrK => true
  | _ => false

/-- `strconv.ParseBool`: the canonical Go spellings. -/
def parseBool (v : Chars) : Except TagErr Bool :=
  if v = ['1'] ∨ v = ['t'] ∨ v = ['T'] ∨ v = ['T', 'R', 'U', 'E'] ∨
      v = ['t', 'r', 'u', 'e'] ∨ v = ['T', 'r', 'u', 'e'] then .ok true
  else if v = ['0'] ∨ v = ['f'] ∨ v = ['F'] ∨ v = ['F', 'A', 'L', 'S', 'E'] ∨
      v = ['f', 'a', 'l', 's', 'e'] ∨ v = ['F', 'a', 'l', 's', 'e'] then .ok false
  else .error .conversion

/-- The digits of a decimal literal, or `none` when the string is empty or
holds a non-digit. -/
def digitsToNat : Chars → Option Nat
  | [] => none
  | [c] => if c.isDigit then some (c.toNat - '0'.toNat) else none
  | c :: rest =>
    if c.isDigit then
      match digitsToNat rest with
      | some n => some ((c.toNat - '0'.toNat) * 10 ^ rest.length + n)
      | none => none
    else none

/-- `strconv.ParseInt(value, 10, 64)`: optional sign, decimal digits,
64-bit range check (out of range is an error, as `convertToValue`'s callers
treat any non-nil error as failure). -/
def parseInt64 (v : Chars) : Except TagErr Int :=
  let (neg, digits) :=
    match v with
    | '-' :: rest => (true, rest)
    | '+' :: rest => (false, rest)
    | _ => (false, v)
  match digitsToNat digits with
  | none => .error .conversion
  | some n =>
    let x : Int := if neg then -(n : Int) else (n : Int)
    if -(2 ^ 63) ≤ x ∧ x ≤ 2 ^ 63 - 1 then .ok x else .error .conversion

/-- `convertToValue` (tag_cache.go:33-90) for the kinds exercised by the
claims: bool via `strconv.ParseBool`, string as identity, 64-bit signed
integers via `strconv.ParseInt`; the remaining numeric kinds delegate to
`strconv` (out of scope here) and every other kind is the
"unable to convert string to kind" error of the source's final line. -/
def convertToValue (value : Chars) (kind : FieldKind) : Except TagErr GoValue :=
  match kind with
  | .boolK => (parseBool value).map .bool
  | .stringK => .ok (.str value)
  | .intK => (parseInt64 value).map .int
  | .otherNumK => .error .unmodelled
  | _ => .error .conversion

/-- The resolver tree (resolvers.go): one constructor per concrete
`StructTagOptionUnmarshaler` of the source.  `customR` stands for a
user-supplied unmarshaler obtained through `reflect.New(fType)` — its
behaviour lives outside the verified sources. -/
inductive Resolver where
  | nameR (inner : Resolver)
  | boolR (key : Chars)
  | ptrR (inner : Resolver)
  | sliceR (inner : Resolver)
  | durR
  | customR
  | defaultR (kind : FieldKind)
deriving DecidableEq, Repr

/-- `getResolver` after the initial `$name` test (resolvers.go:113-138):
custom unmarshaler, `time.Duration`, slice, pointer, bool flag, default —
in the order of the source. -/
def getResolverCore : FieldType → Chars → Resolver
  | .base impl dur k, name =>
    if impl then .customR
    else if dur then .durR
    else if k = .boolK then .boolR name
    else .defaultR k
  | .slice impl e, name =>
    if impl then .customR
    else .sliceR (getResolverCore e name)
  | .pointer impl e, name =>
    if impl then .customR
    else .ptrR (getResolverCore e name)

/-- `getResolver` (resolvers.go:107-139): the name-carrier key wraps the
resolver that the option would get with an empty name. -/
def getResolver (fType : FieldType) (name : Chars) : Resolver :=
  if name = nameTagChars then .nameR (getResolverCore fType [])
  else getResolverCore fType name

/-- Fuel bound for `evalResolverF`: one step per resolver layer. -/
def resolverSize : Resolver → Nat
  | .nameR i => resolverSize i + 1
  | .ptrR i => resolverSize i + 1
  | .sliceR i => resolverSize i + 1
  | _ => 1

/-- The `sliceResolver` comma adjustment (resolvers.go:64-71): a leading
comma gets a second comma prepended, a trailing comma a second one
appended. -/
def slicePreprocess (tag : Chars) : Chars :=
  if tag = [] then []
  else
    let t1 := if tag.head? == some ',' then ',' :: tag else tag
    if t1.getLast? == some ',' then t1 ++ [','] else t1

/-- The element loop of `sliceResolver.UnmarshalTagOption`
(resolvers.go:73-87): drop one leading comma, take the next tag value,
resolve it with the element resolver, append; any failure fails the whole
list. -/
def sliceElems (ev : Chars → Except TagErr GoValue) :
    Nat → Chars → List GoValue → Except TagErr (List GoValue)
  | 0, _, _ => .error .fuelExhausted
  | _ + 1, [], acc => .ok acc
  | f + 1, tag, acc =>
    let tag1 := if tag.head? == some ',' then tag.tail else tag
    match getNextTagValue tag1 with
    | .error e => .error e
    | .ok (rest, v) =>
      match ev v with
      | .error e => .error e
      | .ok gv => sliceElems ev f rest (acc ++ [gv])

/-- `UnmarshalTagOption` of every resolver (resolvers.go), by cases:
`nameResolver` substitutes the field's own name for an empty value;
`boolResolver` returns `true` when the value equals its key, otherwise
converts; `pointerResolver` boxes the inner result; `sliceResolver` runs the
element loop; `durationResolver` and custom unmarshalers call code outside
the verified sources; `defaultResolver` delegates to `convertToValue`.
`fld` is the subject field's name. -/
def evalResolverF : Nat → Resolver → Chars → Chars → Except TagErr GoValue
  | 0, _, _, _ => .error .fuelExhausted
  | f + 1, r, fld, v =>
    match r with
    | .nameR inner =>
      if v = [] then evalResolverF f inner fld fld else evalResolverF f inner fld v
    | .boolR key =>
      if v = key then .ok (.bool true) else (parseBool v).map .bool
    | .ptrR inner =>
      match evalResolverF f inner fld v with
      | .error e => .error e
      | .ok w => .ok (.ptr w)
    | .sliceR inner =>
      let t := slicePreprocess v
      match sliceElems (fun x => evalResolverF f inner fld x) (t.length + 1) t [] with
      | .error e => .error e
      | .ok l => .ok (.slice (toGVList l))
    | .durR => .error .unmodelled
    | .customR => .error .unmodelled
    | .defaultR k => convertToValue v k

/-- Entry point: enough fuel for the whole resolver tree. -/
def evalResolver (r : Resolver) (fld v : Chars) : Except TagErr GoValue :=
  evalResolverF (resolverSize r) r fld v

/-- A compiled option (`StructTagOption`, tag_cache.go:109-114), extended
with `targetKind`, the declared kind of the option-struct field at
`fieldIndex` (the source reads it back through reflection when it checks
`CanConvert` and calls `Set`). -/
structure StructTagOption where
  name : Chars
  required : Bool
  fieldIndex : Nat
  resolver : Resolver
  targetKind : FieldKind
deriving DecidableEq, Repr

/-- Assoc-list lookup into `structTagMap` (a Go `map[string]StructTagOption`;
keys are unique, so an insertion-ordered list is an equivalent model). -/
def lookupOpt (m : List StructTagOption) (k : Chars) : Option StructTagOption :=
  m.find? (fun o => o.name == k)

/-- The instance of the option struct `T` being filled for one subject field:
a last-write-wins assignment of values to option-field indices.  An index
that was never written holds the zero value of its kind, exactly as the
`new(T)` instance of the source. -/
abbrev ValueMap := List (Nat × GoValue)

/-- `ftv.Field(i).Set(v)`. -/
def setField (m : ValueMap) (i : Nat) (v : GoValue) : ValueMap := (i, v) :: m

/-- The zero `reflect.Value` of a kind. -/
def zeroValue : FieldKind → GoValue
  | .boolK => .bool false
  | .stringK => .str []
  | .intK => .int 0
  | .otherNumK => .int 0
  | .sliceK => .nilV
  | .pointerK => .nilV
  | _ => .nilV

/-- Reading field `i` of the option struct after decoding. -/
def getFieldValue (m : ValueMap) (i : Nat) (k : FieldKind) : GoValue :=
  (m.lookup i).getD (zeroValue k)

/-- `v.CanConvert(ftv.Field(st.FieldIndex).Type())`, for the value shapes the
modelled resolvers can produce against the kinds of the declaring fields.
(The exotic conversions Go would additionally admit, such as integers to
strings, never arise for resolvers chosen by `getResolver`.) -/
def canConvert : GoValue → FieldKind → Bool
  | .bool _, .boolK => true
  | .str _, .stringK => true
  | .int _, .intK => true
  | .int _, .otherNumK => true
  | .slice _, .sliceK => true
  | .ptr _, .pointerK => true
  | .nilV, .sliceK => true
  | .nilV, .pointerK => true
  | _, _ => false

/-- One decoded subject field (`FieldTag[T]`, tag_cache.go:94-105). -/
structure FieldTagT where
  fieldName : Chars
  fieldIndex : Nat
  value : ValueMap
deriving DecidableEq

/-- `StructTagCache[T]` (tag_cache.go:120-126).  `typeToTags` keys subject
types by an identity number standing for `reflect.Type` identity. -/
structure StructTagCache where
  tagName : Chars
  structTagMap : List StructTagOption
  hasName : Bool
  requiredTags : List Chars
  typeToTags : List (Nat × List FieldTagT)
deriving DecidableEq

/-- A field of the option-shape struct `T`, as the schema compiler sees it:
its Go name, the value of its `structtag:"..."` tag (already extracted by
reflection), its type, and the reflection flags `PkgPath != ""`
(`unexported`) and `Anonymous`. -/
structure OptionField where
  name : Chars
  tag : Chars
  type : FieldType
  unexported : Bool
  anonymous : Bool
deriving DecidableEq, Repr

/-- The descriptor scan of `NewFieldTagCache` (tag_cache.go:153-163): the
first element is the option name unless it is `-`; every later element
equal to `required` marks the option required. -/
def scanDescriptor : List Chars → Chars × Bool
  | [] => ([], false)
  | o :: rest => (if o = skipChars then [] else o, rest.any (· == requiredChars))

/-- The field loop of `NewFieldTagCache` (tag_cache.go:146-191), returning
`(structTagMap, hasName, requiredTags)`: skip unexported non-anonymous
fields; scan the comma-split descriptor with the lower-cased field name
appended; keep the field when its name is neither empty nor `-`; reject
unsupported kinds without a custom unmarshaler; record the name-carrier;
bind the resolver; reject duplicate keys; collect required keys. -/
def compileFieldsAux (fields : List OptionField) (i : Nat)
    (m : List StructTagOption) (hasName : Bool) (req : List Chars) :
    Except TagErr (List StructTagOption × Bool × List Chars) :=
  match fields with
  | [] => .ok (m, hasName, req)
  | f :: rest =>
    if f.unexported ∧ ¬f.anonymous then
      compileFieldsAux rest (i + 1) m hasName req
    else
      let elems := splitComma f.tag ++ [lowerChars f.name]
      let (nm, required) := scanDescriptor elems
      if nm ≠ [] ∧ nm ≠ skipChars then
        if unsupportedKind (effectiveKind f.type) ∧ ¬implementsOf f.type then
          .error .unsupportedKind
        else
          let hasName2 := hasName || (nm == nameTagChars)
          let res := getResolver f.type nm
          if (lookupOpt m nm).isSome then .error .duplicateKey
          else
            compileFieldsAux rest (i + 1)
              (m ++ [⟨nm, required, i, res, kindOf f.type⟩]) hasName2
              (if required then req ++ [nm] else req)
      else
        compileFieldsAux rest (i + 1) m hasName req

/-- A `reflect.Type` as inspected by the initial kind switch of
`NewFieldTagCache`: a struct (carrying its fields), a pointer (carrying its
pointee), or any other kind without an element type (string, int, ...). -/
inductive RType where
  | strukt (fields : List OptionField)
  | pointer (elem : RType)
  | otherK
deriving DecidableEq, Repr

/-- `reflect.Type.Elem()`: defined for pointers, a run-time panic for every
kind without an element type. -/
def elemOf : RType → Option RType
  | .pointer e => some e
  | _ => none

/-- Outcome of `NewFieldTagCache[T]`: a cache, the error return, or an
aborted execution (a `reflect` panic the function does not recover from). -/
inductive InitOutcome where
  | ok (c : StructTagCache)
  | err
  | crashes
deriving DecidableEq

/-- `NewFieldTagCache[T]` (tag_cache.go:129-199).  The kind switch
(lines 131-142): a struct proceeds; for a pointer the code takes
`defType = defType.Elem()` and then asks `defType.Elem().Kind()` — when the
pointee has no element type (a struct, a string, ...) that second `Elem()`
call panics; when it does and its element is a struct the switch breaks
while `defType` is still the non-struct pointee, so the later
`defType.NumField()` call panics; any other kind returns the
"needs a struct type" error. -/
def NewFieldTagCacheModel (t : RType) (tagName : Chars) : InitOutcome :=
  let checked : Except TagErr (Option RType) :=
    match t with
    | .strukt fs => .ok (some (.strukt fs))
    | .pointer e =>
      match elemOf e with
      | none => .ok none
      | some e2 =>
        match e2 with
        | .strukt _ => .ok (some e)
        | _ => .error .needsStruct
    | .otherK => .error .needsStruct
  match checked with
  | .error _ => .err
  | .ok none => .crashes
  | .ok (some (.strukt fs)) =>
    match compileFieldsAux fs 0 [] false [] with
    | .error _ => .err
    | .ok (m, hasName, req) => .ok ⟨tagName, m, hasName, req, []⟩
  | .ok (some _) => .crashes

/-- The compiled option map of an initialisation outcome. -/
def initMap : InitOutcome → List StructTagOption
  | .ok c => c.structTagMap
  | _ => []

/-- `true` exactly when initialisation returned a cache. -/
def isOkInit : InitOutcome → Bool
  | .ok _ => true
  | _ => false

/-- A field of a subject struct as `Add` sees it: its name, the raw value of
the tag named `tagName` (already extracted by reflection), and the
reflection flags. -/
structure SubjectField where
  name : Chars
  tag : Chars
  unexported : Bool
  anonymous : Bool
deriving DecidableEq

/-- A subject `reflect.Type` identified by a number: a struct carrying its
fields, a pointer-or-array kind carrying its element type, or any other
kind. -/
inductive SubjectType where
  | strukt (id : Nat) (fields : List SubjectField)
  | ptrOrArray (id : Nat) (elem : SubjectType)
  | other (id : Nat)
deriving DecidableEq

/-- The identity number of a subject type. -/
def SubjectType.id : SubjectType → Nat
  | .strukt i _ => i
  | .ptrOrArray i _ => i
  | .other i => i

/-- The effective key of the entry at position `i` (tag_cache.go:302-306): the
first entry of a plan with a name carrier is forced to `$name` (overriding an
explicit `key=` prefix); an entry without an explicit key is keyed by its own
value; otherwise the explicit key is used as-is. -/
def effectiveKey (i : Nat) (hasName : Bool) (key valueStr : Chars) : Chars :=
  if i == 0 && hasName then nameTagChars
  else if key = [] then valueStr
  else key

/-- The entry loop of `StructTagCache.Add` for one subject field
(tag_cache.go:264-327): match the key/value pattern against the remaining
tag (no match ends the loop); extract the value (bracket loop or
`getNextTagValue`; their errors abort the whole call); compute the effective
key; an unknown key is ignored; on a known key run the bound resolver — a
failure aborts the whole call when the option is required and is swallowed
otherwise; a successful value must be convertible to the declaring field's
type (else the call aborts), is stored, and a required option's name is
recorded.  `acc` is the option-struct instance, `req` the satisfied-required
accumulator shared across all subject fields of one `Add` call. -/
def decodeEntriesAux (c : StructTagCache) (fld : Chars) :
    Nat → Chars → Nat → ValueMap → List Chars →
    Except TagErr (ValueMap × List Chars)
  | 0, _, _, _, _ => .error .fuelExhausted
  | f + 1, tag, i, acc, req =>
    match keyValueMatch tag with
    | none => .ok (acc, req)
    | some (pkey, vr) =>
      match extractValue vr with
      | .error e => .error e
      | .ok (rest, valueStr) =>
        let key := effectiveKey i c.hasName pkey valueStr
        match lookupOpt c.structTagMap key with
        | none => decodeEntriesAux c fld f rest (i + 1) acc req
        | some st =>
          match evalResolver st.resolver fld valueStr with
          | .error e =>
            if st.required then .error e
            else decodeEntriesAux c fld f rest (i + 1) acc req
          | .ok v =>
            if canConvert v st.targetKind then
              decodeEntriesAux c fld f rest (i + 1)
                (setField acc st.fieldIndex v)
                (if st.required then req ++ [st.name] else req)
            else .error .convertMismatch

/-- The entry loop on a whole tag, with adequate fuel. -/
def decodeEntries (c : StructTagCache) (fld : Chars) (tag : Chars) :
    Except TagErr (ValueMap × List Chars) :=
  decodeEntriesAux c fld (tag.length + 1) tag 0 [] []

/-- The field loop of `Add` (tag_cache.go:250-330): skip unexported or
anonymous fields; decode each remaining field's tag into a fresh option
struct; collect the decoded records in order; thread the shared
satisfied-required accumulator through all fields. -/
def decodeFieldsAux (c : StructTagCache) :
    List SubjectField → Nat → List FieldTagT → List Chars →
    Except TagErr (List FieldTagT × List Chars)
  | [], _, fts, req => .ok (fts, req)
  | f :: rest, i, fts, req =>
    if f.unexported ∨ f.anonymous then
      decodeFieldsAux c rest (i + 1) fts req
    else
      match decodeEntriesAux c f.name (f.tag.length + 1) f.tag 0 [] req with
      | .error e => .error e
      | .ok (vm, req2) =>
        decodeFieldsAux c rest (i + 1) (fts ++ [⟨f.name, i, vm⟩]) req2

/-- The required-keys reconciliation at the end of `Add`
(tag_cache.go:331-344): the lists are compared **by length**; on a mismatch
the error carries the set difference (required keys from which every
satisfied name was deleted).  (The source materialises the difference via a
Go map, whose iteration order is unspecified; the model lists the unmet keys
in plan order, which carries the same set.) -/
def checkRequired (planReq : List Chars) (req : List Chars) : Except TagErr Unit :=
  if req.length ≠ planReq.length then
    .error (.missingRequired (planReq.filter (fun r => ¬ req.contains r)))
  else .ok ()

/-- The one-step pointer/array unwrap at the top of `Add`
(tag_cache.go:234-238). -/
def addUnwrap : SubjectType → SubjectType
  | .ptrOrArray _ e => e
  | x => x

/-- `StructTagCache.Add` (tag_cache.go:233-347): unwrap a pointer or array
type once; reject non-structs; decode every field; reconcile required keys;
only then store the decoded records keyed by the (unwrapped) type's
identity.  Returns the updated cache together with the error value — every
failing path leaves the cache exactly as it was. -/
def cacheAdd (c : StructTagCache) (t : SubjectType) :
    StructTagCache × Except TagErr Unit :=
  match addUnwrap t with
  | .strukt tid fields =>
    match decodeFieldsAux c fields 0 [] [] with
    | .error e => (c, .error e)
    | .ok (fts, req) =>
      match checkRequired c.requiredTags req with
      | .error e => (c, .error e)
      | .ok _ => ({ c with typeToTags := (tid, fts) :: c.typeToTags }, .ok ())
  | _ => (c, .error .notStruct)

/-- `StructTagCache.Get` (tag_cache.go:350-353): a read-only lookup by type
identity (no unwrapping). -/
def cacheGet (c : StructTagCache) (t : SubjectType) : Option (List FieldTagT) :=
  c.typeToTags.lookup t.id

/-- The type identity under which a successful `Add` stores its result (the
pointer/array-unwrapped type). -/
def storedId (t : SubjectType) : Nat := (addUnwrap t).id

/-- The tokenizer in isolation (the token-producing skeleton of the entry
loop, tag_cache.go:264-301): the ordered `(explicit key, raw value)` pairs of
a tag string, with `[]` for a missing key.  Exactly the token sequence the
decoder consumes; the grammar errors are those of the fused loop. -/
def tokenizeTagAux : Nat → Chars → List (Chars × Chars) →
    Except TagErr (List (Chars × Chars))
  | 0, _, _ => .error .fuelExhausted
  | f + 1, tag, acc =>
    match keyValueMatch tag with
    | none => .ok acc
    | some (pkey, vr) =>
      match extractValue vr with
      | .error e => .error e
      | .ok (rest, valueStr) => tokenizeTagAux f rest (acc ++ [(pkey, valueStr)])

/-- Tokenizing a whole tag string. -/
def tokenizeTag (tag : Chars) : Except TagErr (List (Chars × Chars)) :=
  tokenizeTagAux (tag.length + 1) tag []

/-- Whether any entry of the tag resolves to the effective key `k` — the
formal reading of "the key `k` appears in the tag".  Walks the very same
token sequence as the decoder. -/
def tagMentionsKeyAux (hasName : Bool) (k : Chars) :
    Nat → Chars → Nat → Bool
  | 0, _, _ => false
  | f + 1, tag, i =>
    match keyValueMatch tag with
    | none => false
    | some (pkey, vr) =>
      match extractValue vr with
      | .error _ => false
      | .ok (rest, valueStr) =>
        effectiveKey i hasName pkey valueStr == k ||
          tagMentionsKeyAux hasName k f rest (i + 1)

/-- Whether the key `k` appears (as an effective key) in the tag. -/
def tagMentionsKey (hasName : Bool) (k : Chars) (tag : Chars) : Bool :=
  tagMentionsKeyAux hasName k (tag.length + 1) tag 0

/-- A plain `string` option-field type. -/
def stringTy : FieldType := .base false false .stringK
/-- A plain `bool` option-field type. -/
def boolTy : FieldType := .base false false .boolK
/-- A plain `int` option-field type. -/
def intTy : FieldType := .base false false .intK
/-- A nested struct option-field type without a custom unmarshaler. -/
def struktTy : FieldType := .base false false .struktK

/-- `"omitempty"`. -/
def omitemptyChars : Chars := ['o', 'm', 'i', 't', 'e', 'm', 'p', 't', 'y']
/-- `"false"`. -/
def falseChars : Chars := ['f', 'a', 'l', 's', 'e']

/-- The cache of a successful initialisation (empty cache otherwise). -/
def getOkCache : InitOutcome → StructTagCache
  | .ok c => c
  | _ => ⟨[], [], false, [], []⟩

/-- The README's example option shape:
`Name string \`structtag:"$name"\`` and
`OmitEmpty bool \`structtag:"omitempty"\``. -/
def jsonShape : List OptionField :=
  [⟨['N', 'a', 'm', 'e'], nameTagChars, stringTy, false, false⟩,
   ⟨['O', 'm', 'i', 't', 'E', 'm', 'p', 't', 'y'], omitemptyChars, boolTy, false, false⟩]

/-- The compiled README example plan. -/
def jsonCache : StructTagCache :=
  getOkCache (NewFieldTagCacheModel (.strukt jsonShape) [])

/-- Option shape with two required string options
(`R string \`structtag:"r,required"\``, `S string \`structtag:"s,required"\``). -/
def twoRequiredShape : List OptionField :=
  [⟨['R'], ['r', ','] ++ requiredChars, stringTy, false, false⟩,
   ⟨['S'], ['s', ','] ++ requiredChars, stringTy, false, false⟩]

/-- The compiled two-required-options plan. -/
def twoRequiredCache : StructTagCache :=
  getOkCache (NewFieldTagCacheModel (.strukt twoRequiredShape) [])

/-- Option shape with a required `int` option `r` and a non-required string
option `s`. -/
def reqIntShape : List OptionField :=
  [⟨['R'], ['r', ','] ++ requiredChars, intTy, false, false⟩,
   ⟨['S'], ['s'], stringTy, false, false⟩]

/-- The compiled required-int plan. -/
def reqIntCache : StructTagCache :=
  getOkCache (NewFieldTagCacheModel (.strukt reqIntShape) [])

/-- Option shape with one non-required string option `s`. -/
def sOnlyShape : List OptionField := [⟨['S'], ['s'], stringTy, false, false⟩]

/-- The compiled single-string-option plan. -/
def sOnlyCache : StructTagCache :=
  getOkCache (NewFieldTagCacheModel (.strukt sOnlyShape) [])

/-- Option shape with one non-required bool option `omitempty`. -/
def boolShape : List OptionField :=
  [⟨['O', 'm', 'i', 't', 'E', 'm', 'p', 't', 'y'], omitemptyChars, boolTy, false, false⟩]

/-- The compiled single-bool-option plan. -/
def boolCache : StructTagCache :=
  getOkCache (NewFieldTagCacheModel (.strukt boolShape) [])

/-- The two-field subject record of the required-check demonstration:
`A int \`test:"s=1"\``, `B int \`test:"s=2"\``.  Key `r` appears in neither
tag. -/
def twoFieldSubject : List SubjectField :=
  [⟨['A'], ['s', '=', '1'], false, false⟩,
   ⟨['B'], ['s', '=', '2'], false, false⟩]

/-- C1: against the plan with required keys `r` and `s`, a subject record
whose two fields both satisfy only `s` decodes **successfully**: the decoder
records `s` twice in the shared satisfied-required accumulator, the
length comparison `2 = 2` passes, and `Add` caches the result even though
the required key `r` was never satisfied by any token of the record (no
decoded field ever wrote option index 0, the `r` slot).  This exhibits the
slip in the required-key reconciliation of `StructTagCache.Add`
(tag_cache.go:331): satisfied keys are counted with multiplicity. -/
theorem c1_required_check_miscount :
    decodeFieldsAux twoRequiredCache twoFieldSubject 0 [] [] =
      .ok ([⟨['A'], 0, [(1, .str ['1'])]⟩, ⟨['B'], 1, [(1, .str ['2'])]⟩],
        [['s'], ['s']]) ∧
    twoRequiredCache.requiredTags = [['r'], ['s']] ∧
    (lookupOpt twoRequiredCache.structTagMap ['r']).map (fun o => o.fieldIndex) =
      some 0 ∧
    (cacheAdd twoRequiredCache (.strukt 7 twoFieldSubject)).2 = .ok () := by
  refine ⟨by decide, by decide, by decide, by decide⟩

/-- C9: `NewFieldTagCache` panics instead of returning its
"needs a struct type" error whenever the type parameter is a pointer to a
struct — the kind switch takes `defType = defType.Elem()` and then calls
`Elem()` again on the struct type, which `reflect` aborts on.  A plain
non-struct, non-pointer type does take the error return. -/
theorem c9_pointer_shape_crashes (fs : List OptionField) (tn : Chars) :
    NewFieldTagCacheModel (.pointer (.strukt fs)) tn = .crashes ∧
    NewFieldTagCacheModel .otherK tn = .err := ⟨rfl, rfl⟩

/-- C2 counterexample: for `s` a single backslash (a string with no raw
quote character, for which the claim's escape function is the identity),
tokenizing `key='\'` does **not** yield one token with value `s`: the
backslash is taken as escaping the closing quote, the scan runs off the end
of the string, and the whole tag is rejected with the grammar error.  A
newline inside the quotes is likewise rejected (the value pattern `(.+)`
stops at a newline). -/
theorem c2_trailing_backslash_counterexample :
    tokenizeTag ['k', 'e', 'y', '=', '\'', '\\', '\''] = .error .grammar ∧
    tokenizeTag ['k', 'e', 'y', '=', '\'', '\n', '\''] = .error .grammar := by
  refine ⟨by decide, by decide⟩

/-- C4 counterexample: an option-shape field named `Value` whose raw option
descriptor is empty is **not** given the default key `value`: construction
succeeds with an empty option map, so a tag entry `value=...` has nothing to
decode into.  (The lower-cased field name is appended to the descriptor's
element list, but the scan only reads option names from the first
element.) -/
theorem c4_no_default_key_counterexample :
    isOkInit (NewFieldTagCacheModel
      (.strukt [⟨['V', 'a', 'l', 'u', 'e'], [], stringTy, false, false⟩]) []) =
      true ∧
    lookupOpt (initMap (NewFieldTagCacheModel
      (.strukt [⟨['V', 'a', 'l', 'u', 'e'], [], stringTy, false, false⟩]) []))
      ['v', 'a', 'l', 'u', 'e'] = none := by
  refine ⟨by decide, by decide⟩

/-- C5 counterexample: a field of a nested struct type with no custom
unmarshaler does **not** fail construction — `reflect.Struct` is missing
from the unsupported-kind case list (tag_cache.go:172), so the option is
compiled with the default resolver. -/
theorem c5_struct_kind_accepted_counterexample :
    isOkInit (NewFieldTagCacheModel
      (.strukt [⟨['X'], ['x'], struktTy, false, false⟩]) []) = true ∧
    unsupportedKind .struktK = false := by
  refine ⟨by decide, by decide⟩

/-- C6 counterexample: the tag `r=x,s='u` contains an opened quoted
construct with no closing quote, yet decoding it against a plan whose
required `int` option `r` precedes `s` fails with the **conversion** error
of `r=x` (required-option failures abort immediately), not with the grammar
error the claim promises. -/
theorem c6_earlier_error_shadows_grammar :
    decodeEntries reqIntCache ['A']
      ['r', '=', 'x', ',', 's', '=', '\'', 'u'] = .error .conversion ∧
    decodeEntries reqIntCache ['A']
      ['r', '=', 'x', ',', 's', '=', '\'', 'u'] ≠ .error .grammar := by
  refine ⟨by decide, by decide⟩

/-- C8 counterexample: for the boolean option declared with key `false`,
the explicit entry `false=false` resolves to `true`, not `false` — the
bare-flag test `value == key` fires before the converter is consulted. -/
theorem c8_false_key_counterexample :
    evalResolver (.boolR falseChars) ['A'] falseChars = .ok (.bool true) ∧
    evalResolver (.boolR falseChars) ['A'] falseChars ≠ .ok (.bool false) := by
  refine ⟨by decide, by decide⟩

/-- Case analysis of `cacheAdd`: every call either fails and returns the
cache untouched, or succeeds and prepends exactly one entry keyed by the
unwrapped type's identity. -/
theorem cacheAdd_spec (c : StructTagCache) (t : SubjectType) :
    ((cacheAdd c t).1 = c ∧ isErr (cacheAdd c t).2 = true) ∨
    (∃ fts, (cacheAdd c t).2 = .ok () ∧
      (cacheAdd c t).1 =
        { c with typeToTags := (storedId t, fts) :: c.typeToTags }) := by
  unfold cacheAdd storedId
  cases h : addUnwrap t with
  | strukt tid fields =>
    cases h1 : decodeFieldsAux c fields 0 [] [] with
    | error e => simp [h1, isErr]
    | ok p =>
      obtain ⟨fts, req⟩ := p
      cases h2 : checkRequired c.requiredTags req with
      | error e => simp [h1, h2, isErr]
      | ok u =>
        right
        refine ⟨fts, ?_, ?_⟩ <;> simp [h1, h2, SubjectType.id]
  | ptrOrArray tid e2 => simp [isErr]
  | other tid => simp [isErr]

/-- C7: a failing `Add` leaves the cache exactly as it was — in particular a
shape that was absent stays absent for a subsequent `Get` — and an entry can
appear in the cache only out of a prior entry or a successful decode of
that very shape. -/
theorem c7_failed_decode_not_cached (c : StructTagCache) (t s : SubjectType)
    (e : TagErr) (fts : List FieldTagT) :
    ((cacheAdd c t).2 = .error e → (cacheAdd c t).1 = c) ∧
    ((cacheAdd c t).2 = .error e → cacheGet c s = none →
      cacheGet ((cacheAdd c t).1) s = none) ∧
    (cacheGet ((cacheAdd c t).1) s = some fts →
      cacheGet c s = some fts ∨
        ((cacheAdd c t).2 = .ok () ∧ s.id = storedId t)) := by
  rcases cacheAdd_spec c t with ⟨hsame, herr⟩ | ⟨fts2, hok, hupd⟩
  · exact ⟨fun _ => hsame, fun _ hn => by rw [hsame]; exact hn,
      fun hg => Or.inl (by rw [hsame] at hg; exact hg)⟩
  · refine ⟨fun habs => ?_, fun habs => ?_, fun hg => ?_⟩
    · rw [hok] at habs; exact absurd habs (by simp)
    · rw [hok] at habs; exact absurd habs (by simp)
    · rw [hupd] at hg
      unfold cacheGet at hg ⊢
      simp only [List.lookup] at hg
      by_cases hid : s.id = storedId t
      · exact Or.inr ⟨hok, hid⟩
      · left
        rw [show (s.id == storedId t) = false from beq_eq_false_iff_ne.mpr hid] at hg
        exact hg

/-- Witness for C7: adding a non-struct subject type to the compiled
single-option plan fails and observably leaves the cache untouched. -/
theorem c7_witness :
    (cacheAdd sOnlyCache (.other 5)).1 = sOnlyCache ∧
    cacheGet ((cacheAdd sOnlyCache (.other 5)).1) (.other 5) = none :=
  ⟨(c7_failed_decode_not_cached sOnlyCache (.other 5) (.other 5) .notStruct []).1
      (by decide),
   (c7_failed_decode_not_cached sOnlyCache (.other 5) (.other 5) .notStruct []).2.1
      (by decide) (by decide)⟩

/-- C3: with a name-carrier in the plan, the entry at position 0 is decoded
under the reserved key `$name` whatever explicit key it carries
(`effectiveKey`); the name resolver substitutes the subject field's own name
for an empty value and passes a non-empty value through; and, end to end on
the README plan: tag `,omitempty` resolves the name option to the field's
name `Name`, tag `cN,omitempty` resolves it to `cN`, and tag `foo=bar`
(an explicit key on the first entry) still decodes under `$name`, to
`bar`. -/
theorem c3_name_carrier (k v fld : Chars) (inner : Resolver) (hv : v ≠ []) :
    effectiveKey 0 true k v = nameTagChars ∧
    evalResolver (.nameR inner) fld [] = evalResolver inner fld fld ∧
    evalResolver (.nameR inner) fld v = evalResolver inner fld v ∧
    decodeEntries jsonCache ['N', 'a', 'm', 'e'] ([','] ++ omitemptyChars) =
      .ok ([(1, .bool true), (0, .str ['N', 'a', 'm', 'e'])], []) ∧
    decodeEntries jsonCache ['X'] (['c', 'N', ','] ++ omitemptyChars) =
      .ok ([(1, .bool true), (0, .str ['c', 'N'])], []) ∧
    decodeEntries jsonCache ['X'] ['f', 'o', 'o', '=', 'b', 'a', 'r'] =
      .ok ([(0, .str ['b', 'a', 'r'])], []) := by
  refine ⟨rfl, rfl, ?_, by decide, by decide, by decide⟩
  simp [evalResolver, resolverSize, evalResolverF, hv]

/-- Witness for C3 at the concrete non-empty value `x` and the default
string resolver. -/
theorem c3_name_carrier_witness :
    effectiveKey 0 true ['f'] ['x'] = nameTagChars ∧
    evalResolver (.nameR (.defaultR .stringK)) ['F'] [] =
      evalResolver (.defaultR .stringK) ['F'] ['F'] ∧
    evalResolver (.nameR (.defaultR .stringK)) ['F'] ['x'] =
      evalResolver (.defaultR .stringK) ['F'] ['x'] ∧
    decodeEntries jsonCache ['N', 'a', 'm', 'e'] ([','] ++ omitemptyChars) =
      .ok ([(1, .bool true), (0, .str ['N', 'a', 'm', 'e'])], []) ∧
    decodeEntries jsonCache ['X'] (['c', 'N', ','] ++ omitemptyChars) =
      .ok ([(1, .bool true), (0, .str ['c', 'N'])], []) ∧
    decodeEntries jsonCache ['X'] ['f', 'o', 'o', '=', 'b', 'a', 'r'] =
      .ok ([(0, .str ['b', 'a', 'r'])], []) :=
  c3_name_carrier ['f'] ['x'] ['F'] (.defaultR .stringK) (by decide)

/-- `splitComma` never returns the empty list. -/
theorem splitComma_cons (d : Chars) : ∃ h t, splitComma d = h :: t := by
  cases d with
  | nil => exact ⟨[], [], rfl⟩
  | cons c rest =>
    by_cases hc : c = ','
    · exact ⟨[], splitComma rest, by simp [splitComma, hc]⟩
    · simp only [splitComma, hc, if_false]
      cases hsc : splitComma rest with
      | nil => exact ⟨[c], [], rfl⟩
      | cons h t => exact ⟨c :: h, t, rfl⟩

/-- A comma-free string splits into itself alone. -/
theorem splitComma_no_comma (k : Chars) (hk : ',' ∉ k) : splitComma k = [k] := by
  induction k with
  | nil => rfl
  | cons c rest ih =>
    have hc : c ≠ ',' := fun h => hk (h ▸ List.mem_cons_self c rest)
    have hrest : ',' ∉ rest := fun h => hk (List.mem_cons_of_mem c h)
    simp [splitComma, hc, ih hrest]

/-- C4 (amended): a declared field whose raw option descriptor is empty is
skipped outright — construction succeeds with an empty option map (no key,
in particular not the lower-cased field name, is registered for it),
whatever the field's name and type. -/
theorem c4_empty_descriptor_skips (nm : Chars) (ty : FieldType) (tn : Chars) :
    NewFieldTagCacheModel (.strukt [⟨nm, [], ty, false, false⟩]) tn =
      .ok ⟨tn, [], false, [], []⟩ := by
  simp [NewFieldTagCacheModel, compileFieldsAux, splitComma, scanDescriptor, skipChars]

/-- C5 (amended): a retained option field whose (slice-unwrapped) kind is in
the unsupported case list — slices of slices, arrays, channels, functions,
interfaces, invalid kinds, maps, unsafe pointers, but **not** nested structs
— and whose type has no custom unmarshaler fails construction with the
unsupported-kind error. -/
theorem c5_unsupported_kind_rejected (nm k : Chars) (ty : FieldType) (tn : Chars)
    (hk1 : k ≠ []) (hk2 : k ≠ skipChars) (hk3 : ',' ∉ k)
    (hkind : unsupportedKind (effectiveKind ty) = true)
    (himpl : implementsOf ty = false) :
    NewFieldTagCacheModel (.strukt [⟨nm, k, ty, false, false⟩]) tn = .err := by
  have hsplit : splitComma k = [k] := splitComma_no_comma k hk3
  simp [NewFieldTagCacheModel, compileFieldsAux, hsplit, scanDescriptor, hk1, hk2,
    hkind, himpl]

/-- Witness for C5 at a concrete map-kind field. -/
theorem c5_unsupported_kind_rejected_witness :
    NewFieldTagCacheModel
      (.strukt [⟨['X'], ['x'], FieldType.base false false .mapK, false, false⟩]) [] =
      .err :=
  c5_unsupported_kind_rejected ['X'] ['x'] (.base false false .mapK) []
    (by decide) (by decide) (by decide) (by decide) (by decide)

/-- C10: a declared field whose name lower-cases to exactly `required` is
compiled into a required option no matter what its raw option descriptor
says: the lower-cased field name is appended to the descriptor's
comma-separated element list before flag scanning, so the flag scan always
sees a `required` element.  (When the field is skipped — empty or `-` key —
or construction fails, the option map holds no option of this field, and
the statement is vacuous for it.) -/
theorem c10_required_field_name (nm d : Chars) (ty : FieldType) (tn : Chars)
    (hlow : lowerChars nm = requiredChars) :
    (initMap (NewFieldTagCacheModel (.strukt [⟨nm, d, ty, false, false⟩]) tn)).all
      (fun o => o.required) = true := by
  obtain ⟨hh, tt, hsplit⟩ := splitComma_cons d
  have hscan : scanDescriptor (splitComma d ++ [lowerChars nm]) =
      ((if hh = skipChars then [] else hh), true) := by
    rw [hsplit, hlow]
    simp [scanDescriptor]
  simp only [NewFieldTagCacheModel, compileFieldsAux, hscan]
  by_cases hskip : hh = skipChars
  · simp [hskip, initMap]
  · simp only [hskip, if_false]
    by_cases hnil : hh = []
    · simp [hnil, initMap]
    · simp only [hnil, hskip, ne_eq, not_false_eq_true, and_self, if_true,
        lookupOpt, List.find?, Option.isSome_none, Bool.false_eq_true,
        compileFieldsAux]
      split
      · simp [initMap]
      · rename_i x m hn rq heq
        simp only [false_and, if_false, List.nil_append] at heq
        split at heq
        · exact absurd heq (by simp)
        · simp only [Except.ok.injEq, Prod.mk.injEq] at heq
          obtain ⟨h1, -⟩ := heq
          simp [initMap, ← h1]

/-- Witness for C10: the field `Required string \`structtag:"r"\`` — whose
descriptor does not carry the `required` flag — compiles to a required
option. -/
theorem c10_required_field_name_witness :
    (initMap (NewFieldTagCacheModel
      (.strukt [⟨['R', 'e', 'q', 'u', 'i', 'r', 'e', 'd'], ['r'], stringTy,
        false, false⟩]) [])).all (fun o => o.required) = true :=
  c10_required_field_name ['R', 'e', 'q', 'u', 'i', 'r', 'e', 'd'] ['r'] stringTy []
    (by decide)

/-- Tokenization and the fused decode loop walk the same entry sequence with
the same fuel: whenever tokenizing fails (on any grammar error), the decode
loop fails too, whatever the plan and whatever state it carries. -/
theorem tokenizeErr_decodeErr (c : StructTagCache) (fld : Chars) :
    ∀ (f : Nat) (tag : Chars) (i : Nat) (acc : ValueMap) (req : List Chars)
      (tacc : List (Chars × Chars)),
      isErr (tokenizeTagAux f tag tacc) = true →
      isErr (decodeEntriesAux c fld f tag i acc req) = true := by
  intro f
  induction f with
  | zero =>
    intro tag i acc req tacc h
    simp [decodeEntriesAux, isErr]
  | succ f ih =>
    intro tag i acc req tacc h
    simp only [tokenizeTagAux] at h
    simp only [decodeEntriesAux]
    cases hkv : keyValueMatch tag with
    | none => rw [hkv] at h; simp [isErr] at h
    | some p =>
      obtain ⟨pkey, vr⟩ := p
      simp only [hkv] at h ⊢
      cases hex : extractValue vr with
      | error e => simp [hex, isErr]
      | ok pr =>
        obtain ⟨rest, v⟩ := pr
        simp only [hex] at h ⊢
        cases hlo : lookupOpt c.structTagMap (effectiveKey i c.hasName pkey v) with
        | none => exact ih rest (i + 1) acc req _ h
        | some st =>
          cases hev : evalResolver st.resolver fld v with
          | error e =>
            by_cases hr : st.required
            · simp [hev, hr, isErr]
            · simp only [hev, hr, if_false]
              exact ih rest (i + 1) acc req _ h
          | ok v2 =>
            by_cases hcc : canConvert v2 st.targetKind
            · simp only [hev, hcc, if_true]
              exact ih rest (i + 1) _ _ _ h
            · simp [hev, hcc, isErr]

/-- C6 (amended): whenever the tokenizer rejects a tag string (an opened
quoted or bracketed construct with no unescaped closing delimiter), the
whole field decode fails, whatever the plan and decoding state — and when no
earlier entry aborts first the failure is the grammar error itself,
regardless of whether the affected option is required (tag `s='unt` against
a plan whose `s` is optional) or even recognized (tag `zzz='u` with `zzz`
unknown to the plan). -/
theorem c6_tokenizer_error_fails_decode :
    (∀ (c : StructTagCache) (fld tag : Chars) (i : Nat) (acc : ValueMap)
        (req : List Chars),
      isErr (tokenizeTag tag) = true →
      isErr (decodeEntriesAux c fld (tag.length + 1) tag i acc req) = true) ∧
    decodeEntries sOnlyCache ['A'] ['s', '=', '\'', 'u', 'n', 't'] =
      .error .grammar ∧
    decodeEntries sOnlyCache ['A'] ['z', 'z', 'z', '=', '\'', 'u'] =
      .error .grammar :=
  ⟨fun c fld tag i acc req h =>
    tokenizeErr_decodeErr c fld (tag.length + 1) tag i acc req [] h,
   by decide, by decide⟩

/-- Witness for C6 at a concrete unterminated-quote tag. -/
theorem c6_tokenizer_error_fails_decode_witness :
    isErr (decodeEntriesAux sOnlyCache ['A']
      ((['s', '=', '\'', 'u', 'n', 't'] : Chars).length + 1)
      ['s', '=', '\'', 'u', 'n', 't'] 0 [] []) = true :=
  c6_tokenizer_error_fails_decode.1 sOnlyCache ['A'] ['s', '=', '\'', 'u', 'n', 't']
    0 [] [] (by decide)

/-- If no entry of a tag resolves to the effective key `k`, and `k`'s option
is the only one writing option-field index `idx`, a successful decode leaves
slot `idx` exactly as it started. -/
theorem decode_untouched (c : StructTagCache) (k : Chars) (idx : Nat)
    (hplan : ∀ key st, lookupOpt c.structTagMap key = some st →
      st.fieldIndex = idx → key = k) :
    ∀ (f : Nat) (tag : Chars) (i : Nat) (acc : ValueMap) (req : List Chars)
      (m : ValueMap) (r : List Chars) (fld : Chars),
      tagMentionsKeyAux c.hasName k f tag i = false →
      decodeEntriesAux c fld f tag i acc req = .ok (m, r) →
      m.lookup idx = acc.lookup idx := by
  intro f
  induction f with
  | zero =>
    intro tag i acc req m r fld hm hd
    simp [decodeEntriesAux] at hd
  | succ f ih =>
    intro tag i acc req m r fld hm hd
    simp only [tagMentionsKeyAux] at hm
    simp only [decodeEntriesAux] at hd
    cases hkv : keyValueMatch tag with
    | none =>
      simp only [hkv, Except.ok.injEq, Prod.mk.injEq] at hd
      rw [← hd.1]
    | some p =>
      obtain ⟨pkey, vr⟩ := p
      simp only [hkv] at hm hd
      cases hex : extractValue vr with
      | error e => simp [hex] at hd
      | ok pr =>
        obtain ⟨rest, v⟩ := pr
        simp only [hex] at hm hd
        rw [Bool.or_eq_false_iff] at hm
        obtain ⟨hm1, hm2⟩ := hm
        cases hlo : lookupOpt c.structTagMap (effectiveKey i c.hasName pkey v) with
        | none =>
          simp only [hlo] at hd
          exact ih rest (i + 1) acc req m r fld hm2 hd
        | some st =>
          simp only [hlo] at hd
          cases hev : evalResolver st.resolver fld v with
          | error e =>
            simp only [hev] at hd
            by_cases hr : st.required = true
            · simp [hr] at hd
            · simp only [hr, if_false] at hd
              exact ih rest (i + 1) acc req m r fld hm2 hd
          | ok v2 =>
            simp only [hev] at hd
            by_cases hcc : canConvert v2 st.targetKind = true
            · simp only [hcc, if_true] at hd
              have hidx : st.fieldIndex ≠ idx := by
                intro he
                have hk := hplan _ st hlo he
                rw [hk] at hm1
                simp at hm1
              have hrec := ih rest (i + 1) (setField acc st.fieldIndex v2)
                (if st.required = true then req ++ [st.name] else req) m r fld hm2 hd
              rw [hrec]
              simp [setField, List.lookup,
                beq_eq_false_iff_ne.mpr (Ne.symm hidx)]
            · simp [hcc] at hd

/-- In the compiled single-bool-option plan, the only option writing
option-field index 0 is keyed `omitempty`. -/
theorem boolCache_only_omitempty (key : Chars) (st : StructTagOption)
    (h : lookupOpt boolCache.structTagMap key = some st) (_ : st.fieldIndex = 0) :
    key = omitemptyChars := by
  have hmap : boolCache.structTagMap =
      [⟨omitemptyChars, false, 0, .boolR omitemptyChars, .boolK⟩] := by decide
  rw [hmap] at h
  simp only [lookupOpt, List.find?] at h
  by_cases hb : (omitemptyChars == key) = true
  · exact (beq_iff_eq.mp hb).symm
  · rw [show ((⟨omitemptyChars, false, 0, .boolR omitemptyChars,
        .boolK⟩ : StructTagOption).name == key) = false from
      Bool.not_eq_true _ ▸ by simpa using hb] at h
    simp at h

/-- C8 (amended): a bare entry whose value equals the bool option's key `k`
resolves to `true` (for **every** key `k`, also keys `strconv.ParseBool`
rejects — the converter is not consulted); the explicit `k=false` form
resolves to `false` for every key other than the literal `false`; and a
successful decode of any tag in which `omitempty` never occurs as an
effective key leaves the option at its zero default `false`.  End to end on
the compiled single-bool-option plan: tag `omitempty` decodes to `true`, tag
`omitempty=false` to `false`. -/
theorem c8_bool_flag_semantics (k fld tag : Chars) (m : ValueMap)
    (r : List Chars) (hk : k ≠ falseChars)
    (hm : tagMentionsKey boolCache.hasName omitemptyChars tag = false)
    (hd : decodeEntriesAux boolCache fld (tag.length + 1) tag 0 [] [] =
      .ok (m, r)) :
    evalResolver (.boolR k) fld k = .ok (.bool true) ∧
    evalResolver (.boolR k) fld falseChars = .ok (.bool false) ∧
    getFieldValue m 0 .boolK = .bool false ∧
    decodeEntries boolCache ['A'] omitemptyChars = .ok ([(0, .bool true)], []) ∧
    decodeEntries boolCache ['A'] (omitemptyChars ++ ['='] ++ falseChars) =
      .ok ([(0, .bool false)], []) := by
  refine ⟨?_, ?_, ?_, by decide, by decide⟩
  · simp [evalResolver, resolverSize, evalResolverF]
  · simp only [evalResolver, resolverSize, evalResolverF,
      if_neg (Ne.symm hk)]
    decide
  · have hz := decode_untouched boolCache omitemptyChars 0
      boolCache_only_omitempty (tag.length + 1) tag 0 [] [] m r fld hm hd
    simp [getFieldValue, hz, zeroValue]

/-- Witness for C8 at the key `omitempty` and the tag `x=1` (which never
mentions `omitempty`). -/
theorem c8_bool_flag_semantics_witness :
    evalResolver (.boolR omitemptyChars) ['F'] omitemptyChars =
      .ok (.bool true) ∧
    evalResolver (.boolR omitemptyChars) ['F'] falseChars = .ok (.bool false) ∧
    getFieldValue [] 0 .boolK = .bool false ∧
    decodeEntries boolCache ['A'] omitemptyChars = .ok ([(0, .bool true)], []) ∧
    decodeEntries boolCache ['A'] (omitemptyChars ++ ['='] ++ falseChars) =
      .ok ([(0, .bool false)], []) :=
  c8_bool_flag_semantics omitemptyChars ['F'] ['x', '=', '1'] [] []
    (by decide) (by decide) (by decide)

/-- `takeWhile` keeps a list all of whose elements satisfy the predicate. -/
theorem takeWhile_all {p : Char → Bool} :
    ∀ {l : Chars}, (∀ c ∈ l, p c = true) → l.takeWhile p = l := by
  intro l
  induction l with
  | nil => intro _; rfl
  | cons c rest ih =>
    intro h
    rw [List.takeWhile_cons, h c (List.mem_cons_self c rest),
      ih fun d hd => h d (List.mem_cons_of_mem c hd)]
    simp

/-- `takeWhile` over an append stops exactly at the first failing element. -/
theorem takeWhile_append_stop {p : Char → Bool} {k : Chars} {x : Char}
    {r : Chars} (hk : ∀ c ∈ k, p c = true) (hx : p x = false) :
    (k ++ x :: r).takeWhile p = k := by
  induction k with
  | nil => simp [List.takeWhile_cons, hx]
  | cons c rest ih =>
    rw [List.cons_append, List.takeWhile_cons, hk c (List.mem_cons_self c rest),
      ih fun d hd => hk d (List.mem_cons_of_mem c hd)]
    simp

/-- C2 (amended): for every non-empty word-character key `k` and every
string `s` with no raw quote, no newline, and no trailing backslash (for
such `s` the claim's escape function is the identity), tokenizing
`k='s'` yields exactly one token with key `k` and raw value `s`. -/
theorem c2_quoted_round_trip (k s : Chars) (hk1 : k ≠ [])
    (hk2 : ∀ c ∈ k, isWordChar c = true)
    (hs1 : '\'' ∉ s) (hs2 : '\n' ∉ s) (hs3 : s.getLast? ≠ some '\\') :
    tokenizeTag (k ++ '=' :: '\'' :: (s ++ ['\''])) = .ok [(k, s)] := by
  have hw : (k ++ '=' :: '\'' :: (s ++ ['\''])).takeWhile isWordChar = k :=
    takeWhile_append_stop hk2 (by decide)
  have hdrop : (k ++ '=' :: '\'' :: (s ++ ['\''])).drop k.length =
      '=' :: '\'' :: (s ++ ['\'']) := List.drop_left k _
  have hTnl : ('\'' :: (s ++ ['\''])).takeWhile (· != '\n') =
      '\'' :: (s ++ ['\'']) := by
    refine takeWhile_all fun c hc => ?_
    rw [List.mem_cons, List.mem_append] at hc
    rcases hc with h | h | h
    · rw [h]; decide
    · exact bne_iff_ne.mpr fun he => hs2 (he ▸ h)
    · rw [List.mem_singleton] at h; rw [h]; decide
  have hkv : keyValueMatch (k ++ '=' :: '\'' :: (s ++ ['\''])) =
      some (k, '\'' :: (s ++ ['\''])) := by
    simp only [keyValueMatch, hw, hdrop, hTnl, List.head?_cons, List.tail_cons]
    simp [hk1]
  have hq : matchUntilQuote (s ++ ['\'']) = some (s, []) := by
    have hs : (s ++ ['\'']).takeWhile (· != '\'') = s :=
      takeWhile_append_stop
        (fun c hc => bne_iff_ne.mpr fun he => hs1 (he ▸ hc)) (by decide)
    simp only [matchUntilQuote, hs, List.drop_left]
  have hgnv : getNextTagValue ('\'' :: (s ++ ['\''])) = .ok ([], s) := by
    unfold getNextTagValue
    rw [if_pos (by simp), List.tail_cons]
    simp only [quotedValueLoopF, hq]
    rw [if_neg (by simp [beq_eq_false_iff_ne.mpr hs3])]
    simp
  have hext : extractValue ('\'' :: (s ++ ['\''])) = .ok ([], s) := by
    unfold extractValue
    rw [if_neg (by simp), hgnv]
  have hlen : (k ++ '=' :: '\'' :: (s ++ ['\''])).length =
      (k.length + s.length + 2) + 1 := by
    simp [List.length_append]
    omega
  unfold tokenizeTag
  rw [hlen]
  simp only [tokenizeTagAux, hkv, hext, List.nil_append]
  rfl

/-- Witness for C2 at the key `key` and the value `a b`. -/
theorem c2_quoted_round_trip_witness :
    tokenizeTag (['k', 'e', 'y'] ++ '=' :: '\'' :: (['a', ' ', 'b'] ++ ['\''])) =
      .ok [(['k', 'e', 'y'], ['a', ' ', 'b'])] :=
  c2_quoted_round_trip ['k', 'e', 'y'] ['a', ' ', 'b'] (by decide) (by decide)
    (by decide) (by decide) (by decide)
